import Mathlib

/-!
Verification development for `fileserver.py` (Glassmorphic File Manager,
Flask backend).  The definitions below are a shallow embedding of the
filename sanitization pipeline, the storage handlers (upload, delete,
rename, info, download) and the authentication decision logic, translated
from the source.  Strings are modelled as Lean `String`/`List Char`; the
flat storage directory is modelled as an association list from names to
file contents, together with an oracle recording the environment's answer
to `Path.resolve().is_relative_to(STORAGE_DIR)`; each handler additionally
returns the trace of filesystem calls it made, in order.
-/

set_option maxRecDepth 8192

/-! ### Character classes used by the sanitization pipeline -/

/-- ASCII uppercase letter, the `A-Z` range of werkzeug's
`_filename_ascii_strip_re` character class `[^A-Za-z0-9_.-]`. -/
def isAsciiUpper (c : Char) : Bool := decide (65 ≤ c.toNat ∧ c.toNat ≤ 90)

/-- ASCII lowercase letter, the `a-z` range of the same class. -/
def isAsciiLower (c : Char) : Bool := decide (97 ≤ c.toNat ∧ c.toNat ≤ 122)

/-- ASCII digit, the `0-9` range of the same class. -/
def isAsciiDigit (c : Char) : Bool := decide (48 ≤ c.toNat ∧ c.toNat ≤ 57)

/-- Characters kept by werkzeug's `_filename_ascii_strip_re.sub("", ...)`:
exactly the class `[A-Za-z0-9_.-]`. -/
def keepChar (c : Char) : Bool :=
  isAsciiUpper c || isAsciiLower c || isAsciiDigit c ||
    decide (c = '_') || decide (c = '.') || decide (c = '-')

/-- ASCII whitespace as recognized by Python's `str.split()`:
space, tab, newline, carriage return, vertical tab (11), form feed (12). -/
def isPyWs (c : Char) : Bool :=
  decide (c = ' ') || decide (c = '\t') || decide (c = '\n') || decide (c = '\r') ||
    decide (c.toNat = 11) || decide (c.toNat = 12)

/-- The character class removed by `re.sub(r'[<>:"/\\|?*]', '', safe_name)`
at fileserver.py line 254. -/
def isBadWin (c : Char) : Bool :=
  decide (c = '<') || decide (c = '>') || decide (c = ':') || decide (c = '"') ||
    decide (c = '/') || decide (c = '\\') || decide (c = '|') || decide (c = '?') ||
    decide (c = '*')

/-! ### List-of-characters utilities mirroring the Python string operations -/

/-- Python `str.strip(chars)`: remove characters belonging to `bad` from both
ends of the list. -/
def stripChars (bad : List Char) (l : List Char) : List Char :=
  ((l.dropWhile (fun c => decide (c ∈ bad))).reverse.dropWhile
    (fun c => decide (c ∈ bad))).reverse

/-- Worker for `splitWs`; `acc` holds the current word, reversed. -/
def splitWsAux : List Char → List Char → List (List Char)
  | [], acc => if acc.isEmpty then [] else [acc.reverse]
  | c :: rest, acc =>
    if isPyWs c then
      (if acc.isEmpty then splitWsAux rest [] else acc.reverse :: splitWsAux rest [])
    else splitWsAux rest (c :: acc)

/-- Python `str.split()` with no argument: split on runs of whitespace,
discarding empty words. -/
def splitWs (l : List Char) : List (List Char) := splitWsAux l []

/-- Python `"_".join(words)`. -/
def joinWords : List (List Char) → List Char
  | [] => []
  | [w] => w
  | w :: ws => w ++ '_' :: joinWords ws

/-! ### werkzeug `secure_filename` and `sanitize_filename` -/

/-- werkzeug's `secure_filename` as executed on a POSIX host
(`os.sep = '/'`, `os.path.altsep = None`, `os.name != 'nt'`):
normalize and encode to ASCII, replace `'/'` by a space, split on
whitespace and join the words with `'_'`, delete every character outside
`[A-Za-z0-9_.-]`, and strip leading/trailing `'.'` and `'_'`.
Modelling note: `unicodedata.normalize('NFKD', ·).encode('ascii','ignore')`
is modelled as dropping every non-ASCII character; on ASCII input this is
exact (NFKD and the ASCII encoding are the identity there). -/
def secure_filename (l : List Char) : List Char :=
  let ascii := l.filter (fun c => decide (c.toNat ≤ 127))
  let seps := ascii.map (fun c => if c = '/' then ' ' else c)
  let joined := joinWords (splitWs seps)
  let kept := joined.filter keepChar
  stripChars ['.', '_'] kept

/-- fileserver.py lines 248-260: `sanitize_filename`.  Runs werkzeug's
`secure_filename`, removes the Windows-reserved characters
`re.sub(r'[<>]...', '', ·)`, strips leading/trailing `'.'` and `' '`, and
raises `ValueError("Invalid filename")` (modelled as `none`) when the
result is empty. -/
def sanitize_filename (s : String) : Option String :=
  let safe1 := secure_filename s.data
  let safe2 := safe1.filter (fun c => !(isBadWin c))
  let safe3 := stripChars ['.', ' '] safe2
  if safe3.isEmpty then none else some (String.mk safe3)

/-! ### Extension handling (`pathlib.Path.stem` / `.suffix`) -/

/-- Index of the last `'.'` in the list, if any (Python `str.rfind('.')`). -/
def rfindDot (l : List Char) : Option Nat :=
  (l.reverse.findIdx? (fun c => decide (c = '.'))).map (fun j => l.length - 1 - j)

/-- `pathlib` stem/suffix split of a bare file name: the suffix starts at the
last dot provided `0 < i < len(name) - 1`; otherwise the suffix is empty.
All call sites in the source pass names already sanitized to a bare
filename, so the name component equals the whole string. -/
def splitStemExt (l : List Char) : List Char × List Char :=
  match rfindDot l with
  | some i => if 0 < i ∧ i < l.length - 1 then (l.take i, l.drop i) else (l, [])
  | none => (l, [])

/-- fileserver.py lines 263-269: `is_allowed_extension`.  `none` models the
YAML `allowed_extensions` being absent (unrestricted). -/
def is_allowed_extension (allowed : Option (List String)) (filename : String) : Bool :=
  match allowed with
  | none => true
  | some exts => exts.contains (String.mk (((splitStemExt filename.data).2).map Char.toLower))

/-! ### Decimal rendering of the collision counter (Python `f"{counter}"`) -/

/-- Worker for `natToDec`; `fuel` bounds the recursion depth and always
suffices when called with `fuel = n + 1` since `n / 10 < n` for `10 ≤ n`. -/
def natToDecAux : Nat → Nat → List Char
  | 0, _ => []
  | fuel + 1, n =>
    if n < 10 then [Nat.digitChar n]
    else natToDecAux fuel (n / 10) ++ [Nat.digitChar (n % 10)]

/-- Decimal rendering of a natural number, as Python's string formatting of
the collision counter produces it. -/
def natToDec (n : Nat) : List Char := natToDecAux (n + 1) n

/-- Value of a decimal digit string; left inverse of `natToDec`, used to
show `natToDec` is injective. -/
def decVal (l : List Char) : Nat := l.foldl (fun a c => 10 * a + (c.toNat - 48)) 0

/-- The name `f"{base}_{counter}{ext}"` built by the upload collision loop at
fileserver.py line 544. -/
def mkSuffixed (base : List Char) (counter : Nat) (ext : List Char) : String :=
  String.mk (base ++ '_' :: (natToDec counter ++ ext))

/-! ### Filesystem model -/

/-- One filesystem call made by a handler, recorded in order.  `existsCheck`
is `Path.exists()`, `containCheck` is `Path.resolve().is_relative_to(STORAGE_DIR)`,
`unlink` is `Path.unlink()`, `renameOp` is `Path.rename(new)`, `save` is
`file.save(filepath)`, `statRead` is `Path.stat()` inside
`get_file_metadata`, and `serve` is `send_from_directory`. -/
inductive FsEvent where
  | existsCheck (name : String)
  | containCheck (name : String)
  | unlink (name : String)
  | renameOp (oldName newName : String)
  | save (name : String)
  | statRead (name : String)
  | serve (name : String)
deriving DecidableEq, Repr

/-- Whether an event is the containment re-validation call. -/
def FsEvent.isContain : FsEvent → Bool
  | .containCheck _ => true
  | _ => false

/-- The storage directory: a flat association list from file names to
contents (`files`), plus the environment's answer to the call
`(STORAGE_DIR / name).resolve().is_relative_to(STORAGE_DIR)` for each
name (`resolveInRoot`): path resolution consults the real filesystem
(symlinks, mounts), which the embedding treats as an oracle. -/
structure FS (α : Type) where
  files : List (String × α)
  resolveInRoot : String → Bool

/-- Names currently present in the storage directory. -/
def FS.names {α : Type} (fs : FS α) : List String := fs.files.map Prod.fst

/-- `(STORAGE_DIR / n).exists()`. -/
def FS.existsF {α : Type} (fs : FS α) (n : String) : Bool := fs.names.contains n

/-- Content stored under name `n`, if any. -/
def FS.lookup {α : Type} (fs : FS α) (n : String) : Option α :=
  (fs.files.find? (fun p => p.1 == n)).map Prod.snd

/-- Outcome of a file-operation handler, keyed to the HTTP responses of
fileserver.py: `ok name` is the 200 response whose metadata carries the
final `name`; `invalidFilename` is the 400 for `ValueError` from
`sanitize_filename`; `typeNotAllowed` the 400 "File type not allowed";
`notFound` the 404; `pathTraversal` the 400/404 "Invalid path" branch
guarded by the containment check; `conflict` the 409. -/
inductive Resp where
  | ok (name : String)
  | invalidFilename
  | typeNotAllowed
  | notFound
  | pathTraversal
  | conflict
deriving DecidableEq, Repr

/-! ### Handlers (file operations) -/

/-- The `while filepath.exists()` loop of fileserver.py lines 542-546:
starting at `counter`, return the first `f"{base}_{counter}{ext}"` that is
free, together with the existence probes performed.  The source loop has no
fuel; it terminates because suffixed names are pairwise distinct and the
directory is finite.  We run it with fuel `names.length + 1`, which is
proved sufficient below (`collisionFuel_sufficient`), so the fuel-exhausted
branch is never taken. -/
def collisionLoop (names : List String) (base ext : List Char) :
    Nat → Nat → String × List FsEvent
  | 0, counter => (mkSuffixed base counter ext, [])
  | fuel + 1, counter =>
    let cand := mkSuffixed base counter ext
    if names.contains cand then
      let r := collisionLoop names base ext fuel (counter + 1)
      (r.1, FsEvent.existsCheck cand :: r.2)
    else (cand, [FsEvent.existsCheck cand])

/-- Static configuration relevant to the embedded handlers: the
`allowed_extensions`, `ip_whitelist`, `api_keys` and `session_lifetime`
entries of config.yaml, loaded once at startup. -/
structure Config where
  allowedExtensions : Option (List String)
  ipWhitelist : List String
  apiKeys : List String
  sessionLifetime : Int

/-- fileserver.py lines 501-567, `upload_file`, from the point where the
client-supplied name reaches `sanitize_filename` (the earlier guards reject
requests with no file part or an empty name before any name handling).
Returns the response, the new directory state and the trace of filesystem
calls.  The duplicated initial `existsCheck` reflects that the `while`
condition re-tests the original path once after the `if` at line 538. -/
def upload_file {α : Type} (cfg : Config) (fs : FS α) (rawName : String)
    (content : α) : Resp × FS α × List FsEvent :=
  match sanitize_filename rawName with
  | none => (.invalidFilename, fs, [])
  | some filename =>
    if !(is_allowed_extension cfg.allowedExtensions filename) then
      (.typeNotAllowed, fs, [])
    else if fs.existsF filename then
      let base := (splitStemExt filename.data).1
      let ext := (splitStemExt filename.data).2
      let probe := collisionLoop fs.names base ext (fs.names.length + 1) 1
      (.ok probe.1, ⟨(probe.1, content) :: fs.files, fs.resolveInRoot⟩,
        FsEvent.existsCheck filename :: FsEvent.existsCheck filename ::
          probe.2 ++ [FsEvent.save probe.1])
    else
      (.ok filename, ⟨(filename, content) :: fs.files, fs.resolveInRoot⟩,
        [FsEvent.existsCheck filename, FsEvent.save filename])

/-- fileserver.py lines 570-614, `delete_file`: sanitize, 404 if absent,
containment re-check (400 "Invalid path" on failure), then unlink. -/
def delete_file {α : Type} (fs : FS α) (filename : String) :
    Resp × FS α × List FsEvent :=
  match sanitize_filename filename with
  | none => (.invalidFilename, fs, [])
  | some safe =>
    if fs.existsF safe then
      if fs.resolveInRoot safe then
        (.ok safe, ⟨fs.files.filter (fun p => !(p.1 == safe)), fs.resolveInRoot⟩,
          [FsEvent.existsCheck safe, FsEvent.containCheck safe, FsEvent.unlink safe])
      else
        (.pathTraversal, fs, [FsEvent.existsCheck safe, FsEvent.containCheck safe])
    else (.notFound, fs, [FsEvent.existsCheck safe])

/-- fileserver.py lines 617-693, `rename_file`: sanitize both names (400 on
either failure), extension check on the new name, 404 if the old name is
absent, 409 if the new name exists, containment re-check on the old path,
then a single `Path.rename` followed by a metadata read of the new path. -/
def rename_file {α : Type} (cfg : Config) (fs : FS α) (rawOld rawNew : String) :
    Resp × FS α × List FsEvent :=
  match sanitize_filename rawOld, sanitize_filename rawNew with
  | some o, some n =>
    if !(is_allowed_extension cfg.allowedExtensions n) then (.typeNotAllowed, fs, [])
    else if !(fs.existsF o) then (.notFound, fs, [FsEvent.existsCheck o])
    else if fs.existsF n then
      (.conflict, fs, [FsEvent.existsCheck o, FsEvent.existsCheck n])
    else if fs.resolveInRoot o then
      (.ok n,
        ⟨fs.files.map (fun p => if p.1 = o then (n, p.2) else p), fs.resolveInRoot⟩,
        [FsEvent.existsCheck o, FsEvent.existsCheck n, FsEvent.containCheck o,
          FsEvent.renameOp o n, FsEvent.statRead n])
    else
      (.pathTraversal, fs,
        [FsEvent.existsCheck o, FsEvent.existsCheck n, FsEvent.containCheck o])
  | _, _ => (.invalidFilename, fs, [])

/-- fileserver.py lines 696-736, `file_info`: sanitize, 404 if absent, then
read the metadata.  No containment re-check appears in the source. -/
def file_info {α : Type} (fs : FS α) (filename : String) :
    Resp × FS α × List FsEvent :=
  match sanitize_filename filename with
  | none => (.invalidFilename, fs, [])
  | some safe =>
    if fs.existsF safe then
      (.ok safe, fs, [FsEvent.existsCheck safe, FsEvent.statRead safe])
    else (.notFound, fs, [FsEvent.existsCheck safe])

/-- fileserver.py lines 743-765, `download_file`: sanitize (404 on failure),
404 if absent, containment re-check surfaced as 404, then serve the file. -/
def download_file {α : Type} (fs : FS α) (filename : String) :
    Resp × FS α × List FsEvent :=
  match sanitize_filename filename with
  | none => (.notFound, fs, [])
  | some safe =>
    if fs.existsF safe then
      if fs.resolveInRoot safe then
        (.ok safe, fs,
          [FsEvent.existsCheck safe, FsEvent.containCheck safe, FsEvent.serve safe])
      else
        (.notFound, fs, [FsEvent.existsCheck safe, FsEvent.containCheck safe])
    else (.notFound, fs, [FsEvent.existsCheck safe])

/-! ### Authentication -/

/-- Flask session state: the `authenticated` and `last_activity` keys set by
`login`, the `permanent` flag, and `other` standing for any further keys a
session dictionary may hold (so that `session.clear()` is observable). -/
structure Session where
  authenticated : Bool
  lastActivity : Option Int
  permanent : Bool
  other : List (String × String)
deriving DecidableEq, Repr

/-- The result of `session.clear()`. -/
def Session.cleared : Session := ⟨false, none, false, []⟩

/-- Decision of an authentication decorator, keyed to the HTTP responses:
`allow` runs the handler; `forbidden` is `abort(403)` from the IP
whitelist; `invalidApiKey` and `authRequired` and `sessionExpired` are the
three 401 bodies of `require_auth`. -/
inductive AuthDecision where
  | allow
  | forbidden
  | invalidApiKey
  | authRequired
  | sessionExpired
deriving DecidableEq, Repr

/-- fileserver.py lines 123-130, `check_ip_whitelist`: an empty (or absent)
whitelist admits every client. -/
def check_ip_whitelist (cfg : Config) (clientIp : String) : Bool :=
  if cfg.ipWhitelist.isEmpty then true else cfg.ipWhitelist.contains clientIp

/-- The session-authentication fallback of `require_auth`
(fileserver.py lines 220-240): authenticated sessions with a stale
`last_activity` are cleared and rejected; otherwise `last_activity` is
refreshed to `now` and the handler runs. -/
def sessionAuth (cfg : Config) (s : Session) (now : Int) : AuthDecision × Session :=
  if s.authenticated then
    match s.lastActivity with
    | some t =>
      if now - t > cfg.sessionLifetime then (.sessionExpired, Session.cleared)
      else (.allow, { s with lastActivity := some now })
    | none => (.allow, { s with lastActivity := some now })
  else (.authRequired, s)

/-- fileserver.py lines 200-241, `require_auth`: IP whitelist first, then the
`X-API-Key` header.  Python's `if api_key:` is truthiness, so a header that
is absent or carries the empty string falls through to session
authentication. -/
def require_auth (cfg : Config) (clientIp : String) (apiKey : Option String)
    (s : Session) (now : Int) : AuthDecision × Session :=
  if !(check_ip_whitelist cfg clientIp) then (.forbidden, s)
  else
    match apiKey with
    | some k =>
      if k ≠ "" then
        (if cfg.apiKeys.contains k then (.allow, s) else (.invalidApiKey, s))
      else sessionAuth cfg s now
    | none => sessionAuth cfg s now

/-- Result of the `POST /login` handler. -/
inductive LoginResult where
  | loginOk
  | loginFail
deriving DecidableEq, Repr

/-- fileserver.py lines 408-440, `login`, for a JSON request.  `passwordOk`
is the verdict of `check_password_hash(password_hash, password)`, an
external cryptographic primitive.  On success the session is cleared and
then `authenticated`, `last_activity` and `permanent` are set; on failure
the session is untouched. -/
def login (passwordOk : Bool) (s : Session) (now : Int) : LoginResult × Session :=
  if passwordOk then
    (.loginOk, { authenticated := true, lastActivity := some now,
                 permanent := true, other := [] })
  else (.loginFail, s)

/-! ### The specification's own description of the sanitizer (for C3) -/

/-- Modelled from the spec: the PathSanitizer algorithm as §4.1 words it —
"(a) strip all path-separator and traversal-control characters
(`/ \ : " < > | ? *` and any `..` path segments), collapsing to a bare
filename with no directory component; (b) trim trailing/leading `.` and
whitespace; (c) if the result is empty, fail with `InvalidFilename`."
Used only to compare the spec's wording with `sanitize_filename`. -/
def sanitizeSpec (s : String) : Option String :=
  let stripped := s.data.filter (fun c => !(isBadWin c))
  let trimmed := stripChars ['.', ' ', '\t', '\n', '\r'] stripped
  if trimmed.isEmpty then none else some (String.mk trimmed)

/-- Whether an event is a `Path.rename` call. -/
def FsEvent.isRenameOp : FsEvent → Bool
  | .renameOp _ _ => true
  | _ => false

/-- Whether an event writes or deletes (a copy-plus-delete implementation of
rename would produce these). -/
def FsEvent.isWriteOrUnlink : FsEvent → Bool
  | .unlink _ => true
  | .save _ => true
  | _ => false

/-! ### Character-class facts -/

/-- Numeric description of `keepChar`. -/
theorem keepChar_toNat {c : Char} (h : keepChar c = true) :
    (65 ≤ c.toNat ∧ c.toNat ≤ 90) ∨ (97 ≤ c.toNat ∧ c.toNat ≤ 122) ∨
      (48 ≤ c.toNat ∧ c.toNat ≤ 57) ∨ c.toNat = 95 ∨ c.toNat = 46 ∨ c.toNat = 45 := by
  simp only [keepChar, isAsciiUpper, isAsciiLower, isAsciiDigit, Bool.or_eq_true,
    decide_eq_true_eq] at h
  rcases h with ((((h | h) | h) | h) | h) | h
  · exact Or.inl h
  · exact Or.inr (Or.inl h)
  · exact Or.inr (Or.inr (Or.inl h))
  · subst h; exact Or.inr (Or.inr (Or.inr (Or.inl rfl)))
  · subst h; exact Or.inr (Or.inr (Or.inr (Or.inr (Or.inl rfl))))
  · subst h; exact Or.inr (Or.inr (Or.inr (Or.inr (Or.inr rfl))))

/-- Numeric description of `isPyWs`. -/
theorem isPyWs_toNat {c : Char} (h : isPyWs c = true) :
    c.toNat = 32 ∨ c.toNat = 9 ∨ c.toNat = 10 ∨ c.toNat = 13 ∨
      c.toNat = 11 ∨ c.toNat = 12 := by
  simp only [isPyWs, Bool.or_eq_true, decide_eq_true_eq] at h
  rcases h with ((((h | h) | h) | h) | h) | h
  · subst h; exact Or.inl rfl
  · subst h; exact Or.inr (Or.inl rfl)
  · subst h; exact Or.inr (Or.inr (Or.inl rfl))
  · subst h; exact Or.inr (Or.inr (Or.inr (Or.inl rfl)))
  · exact Or.inr (Or.inr (Or.inr (Or.inr (Or.inl h))))
  · exact Or.inr (Or.inr (Or.inr (Or.inr (Or.inr h))))

/-- Numeric description of `isBadWin`. -/
theorem isBadWin_toNat {c : Char} (h : isBadWin c = true) :
    c.toNat = 60 ∨ c.toNat = 62 ∨ c.toNat = 58 ∨ c.toNat = 34 ∨ c.toNat = 47 ∨
      c.toNat = 92 ∨ c.toNat = 124 ∨ c.toNat = 63 ∨ c.toNat = 42 := by
  simp only [isBadWin, Bool.or_eq_true, decide_eq_true_eq] at h
  rcases h with (((((((h | h) | h) | h) | h) | h) | h) | h) | h <;> subst h
  · exact Or.inl rfl
  · exact Or.inr (Or.inl rfl)
  · exact Or.inr (Or.inr (Or.inl rfl))
  · exact Or.inr (Or.inr (Or.inr (Or.inl rfl)))
  · exact Or.inr (Or.inr (Or.inr (Or.inr (Or.inl rfl))))
  · exact Or.inr (Or.inr (Or.inr (Or.inr (Or.inr (Or.inl rfl)))))
  · exact Or.inr (Or.inr (Or.inr (Or.inr (Or.inr (Or.inr (Or.inl rfl))))))
  · exact Or.inr (Or.inr (Or.inr (Or.inr (Or.inr (Or.inr (Or.inr (Or.inl rfl)))))))
  · exact Or.inr (Or.inr (Or.inr (Or.inr (Or.inr (Or.inr (Or.inr (Or.inr rfl)))))))

/-- Characters equal iff their code points are. -/
theorem char_eq_iff_toNat {c d : Char} : c = d ↔ c.toNat = d.toNat := by
  constructor
  · intro h; rw [h]
  · intro h
    rw [← Char.ofNat_toNat c, h, Char.ofNat_toNat]

/-- A kept character is ASCII. -/
theorem keep_ascii {c : Char} (h : keepChar c = true) : c.toNat ≤ 127 := by
  rcases keepChar_toNat h with h | h | h | h | h | h <;> omega

/-- A kept character is not Python whitespace. -/
theorem keep_not_ws {c : Char} (h : keepChar c = true) : isPyWs c = false := by
  cases hw : isPyWs c
  · rfl
  · exfalso
    rcases keepChar_toNat h with h | h | h | h | h | h <;>
      rcases isPyWs_toNat hw with w | w | w | w | w | w <;> omega

/-- A kept character is not in the Windows-reserved class. -/
theorem keep_not_bad {c : Char} (h : keepChar c = true) : isBadWin c = false := by
  cases hw : isBadWin c
  · rfl
  · exfalso
    rcases keepChar_toNat h with h | h | h | h | h | h <;>
      rcases isBadWin_toNat hw with w | w | w | w | w | w | w | w | w <;> omega

/-- A kept character is not a slash. -/
theorem keep_ne_slash {c : Char} (h : keepChar c = true) : c ≠ '/' := by
  intro he
  rw [char_eq_iff_toNat] at he
  rcases keepChar_toNat h with h | h | h | h | h | h <;>
    simp only [show ('/' : Char).toNat = 47 from rfl] at he <;> omega

/-- A kept character is not a space. -/
theorem keep_ne_space {c : Char} (h : keepChar c = true) : c ≠ ' ' := by
  intro he
  rw [char_eq_iff_toNat] at he
  rcases keepChar_toNat h with h | h | h | h | h | h <;>
    simp only [show (' ' : Char).toNat = 32 from rfl] at he <;> omega

/-! ### `stripChars` lemmas -/

/-- If the head is not stripped, `dropWhile` keeps the whole list. -/
theorem dropWhile_eq_self_of_head {α : Type} {p : α → Bool} {l : List α}
    (h : ∀ c, l.head? = some c → p c = false) : l.dropWhile p = l := by
  cases l with
  | nil => rfl
  | cons a t =>
    rw [List.dropWhile_cons, h a rfl]
    simp

/-- A nonempty suffix has the same last element. -/
theorem getLast?_of_suffix {α : Type} {l₁ l₂ : List α} (h : l₁ <:+ l₂)
    (hne : l₁ ≠ []) : l₂.getLast? = l₁.getLast? := by
  obtain ⟨t, rfl⟩ := h
  rw [List.getLast?_append]
  cases hx : l₁.getLast? with
  | none => exact absurd (List.getLast?_eq_none_iff.mp hx) hne
  | some a => rfl

/-- Members of `stripChars bad l` are members of `l`. -/
theorem mem_stripChars {bad l : List Char} {c : Char} (h : c ∈ stripChars bad l) :
    c ∈ l := by
  unfold stripChars at h
  rw [List.mem_reverse] at h
  have h1 := (List.dropWhile_sublist _).subset h
  rw [List.mem_reverse] at h1
  exact (List.dropWhile_sublist _).subset h1

/-- The head of a stripped list is not a stripped character. -/
theorem stripChars_head_not {bad l : List Char} {c : Char}
    (h : (stripChars bad l).head? = some c) : c ∉ bad := by
  unfold stripChars at h
  rw [List.head?_reverse] at h
  set p : Char → Bool := fun c => decide (c ∈ bad) with hp
  have hX : (l.dropWhile p).reverse.dropWhile p ≠ [] := by
    intro he
    rw [he] at h
    simp at h
  have h2 := getLast?_of_suffix (List.dropWhile_suffix (l := (l.dropWhile p).reverse) p) hX
  rw [List.getLast?_reverse] at h2
  rw [← h2] at h
  have h3 := List.head?_dropWhile_not p l
  rw [h] at h3
  simpa [hp] using h3

/-- The last element of a stripped list is not a stripped character. -/
theorem stripChars_last_not {bad l : List Char} {c : Char}
    (h : (stripChars bad l).getLast? = some c) : c ∉ bad := by
  unfold stripChars at h
  rw [List.getLast?_reverse] at h
  set p : Char → Bool := fun c => decide (c ∈ bad) with hp
  have h3 := List.head?_dropWhile_not p (l.dropWhile p).reverse
  rw [h] at h3
  simpa [hp] using h3

/-- Stripping characters that do not occur at either end is the identity. -/
theorem stripChars_eq_self {bad l : List Char}
    (hh : ∀ c, l.head? = some c → c ∉ bad)
    (hl : ∀ c, l.getLast? = some c → c ∉ bad) :
    stripChars bad l = l := by
  unfold stripChars
  have h1 : l.dropWhile (fun c => decide (c ∈ bad)) = l :=
    dropWhile_eq_self_of_head (fun c hc => decide_eq_false (hh c hc))
  rw [h1]
  have h2 : l.reverse.dropWhile (fun c => decide (c ∈ bad)) = l.reverse :=
    dropWhile_eq_self_of_head
      (fun c hc => decide_eq_false (hl c (by rwa [List.head?_reverse] at hc)))
  rw [h2, List.reverse_reverse]

/-! ### `splitWs` and `joinWords` lemmas -/

/-- On whitespace-free input with a nonempty accumulator the worker emits a
single word. -/
theorem splitWsAux_no_ws {l : List Char} (h : ∀ c ∈ l, isPyWs c = false) :
    ∀ acc : List Char, acc ≠ [] → splitWsAux l acc = [acc.reverse ++ l] := by
  induction l with
  | nil =>
    intro acc hacc
    simp [splitWsAux, hacc]
  | cons c rest ih =>
    intro acc hacc
    have hc := h c (List.mem_cons_self c rest)
    rw [splitWsAux, hc]
    simp only [Bool.false_eq_true, if_false]
    rw [ih (fun d hd => h d (List.mem_cons_of_mem c hd)) (c :: acc) (by simp)]
    simp

/-- Python `str.split()` of a nonempty whitespace-free string is that string
alone. -/
theorem splitWs_no_ws {l : List Char} (hne : l ≠ [])
    (h : ∀ c ∈ l, isPyWs c = false) : splitWs l = [l] := by
  cases l with
  | nil => exact absurd rfl hne
  | cons c rest =>
    have hc := h c (List.mem_cons_self c rest)
    unfold splitWs
    rw [splitWsAux, hc]
    simp only [Bool.false_eq_true, if_false]
    cases rest with
    | nil => simp [splitWsAux]
    | cons d rest' =>
      rw [splitWsAux_no_ws (fun d hd => h d (List.mem_cons_of_mem c hd)) [c] (by simp)]
      simp

/-- Mapping a function that fixes each member is the identity. -/
theorem map_eq_self_of_mem {α : Type} {f : α → α} {l : List α}
    (h : ∀ a ∈ l, f a = a) : l.map f = l := by
  induction l with
  | nil => rfl
  | cons a t ih =>
    rw [List.map_cons, h a (List.mem_cons_self a t),
      ih (fun b hb => h b (List.mem_cons_of_mem a hb))]

/-! ### Shape of `secure_filename` output -/

/-- Every character surviving `secure_filename` is in the kept class
`[A-Za-z0-9_.-]`. -/
theorem secure_filename_keep {l : List Char} :
    ∀ c ∈ secure_filename l, keepChar c = true := by
  intro c hc
  unfold secure_filename at hc
  have h1 := mem_stripChars hc
  exact (List.mem_filter.mp h1).2

/-- The output of `secure_filename` does not start with `'.'` or `'_'`. -/
theorem secure_filename_head {l : List Char} {c : Char}
    (h : (secure_filename l).head? = some c) : c ∉ ['.', '_'] := by
  unfold secure_filename at h
  exact stripChars_head_not h

/-- The output of `secure_filename` does not end with `'.'` or `'_'`. -/
theorem secure_filename_last {l : List Char} {c : Char}
    (h : (secure_filename l).getLast? = some c) : c ∉ ['.', '_'] := by
  unfold secure_filename at h
  exact stripChars_last_not h

/-- A nonempty list of kept characters that neither starts nor ends with
`'.'` or `'_'` is a fixed point of `secure_filename`. -/
theorem secure_filename_fixed {l : List Char} (hne : l ≠ [])
    (hkeep : ∀ c ∈ l, keepChar c = true)
    (hh : ∀ c, l.head? = some c → c ∉ ['.', '_'])
    (hl : ∀ c, l.getLast? = some c → c ∉ ['.', '_']) :
    secure_filename l = l := by
  simp only [secure_filename]
  have hascii : l.filter (fun c => decide (c.toNat ≤ 127)) = l :=
    List.filter_eq_self.mpr
      (fun c hc => decide_eq_true (keep_ascii (hkeep c hc)))
  rw [hascii]
  have hmap : l.map (fun c => if c = '/' then ' ' else c) = l :=
    map_eq_self_of_mem
      (fun c hc => if_neg (keep_ne_slash (hkeep c hc)))
  rw [hmap]
  rw [splitWs_no_ws hne (fun c hc => keep_not_ws (hkeep c hc))]
  show stripChars ['.', '_'] (List.filter keepChar (joinWords [l])) = l
  have hjoin : joinWords [l] = l := rfl
  rw [hjoin]
  rw [List.filter_eq_self.mpr hkeep]
  exact stripChars_eq_self hh hl

/-- The two post-processing steps of `sanitize_filename` (the Windows
character `re.sub` and the `strip('. ')`) are no-ops on the output of
`secure_filename`: the sanitized name is exactly the werkzeug-secured
name, and the `ValueError` fires exactly when that name is empty. -/
theorem sanitize_eq_secure (s : String) :
    sanitize_filename s =
      if (secure_filename s.data).isEmpty then none
      else some (String.mk (secure_filename s.data)) := by
  simp only [sanitize_filename]
  have h2 : (secure_filename s.data).filter (fun c => !(isBadWin c)) =
      secure_filename s.data :=
    List.filter_eq_self.mpr
      (fun c hc => by rw [keep_not_bad (secure_filename_keep c hc)]; rfl)
  rw [h2]
  have h3 : stripChars ['.', ' '] (secure_filename s.data) = secure_filename s.data := by
    apply stripChars_eq_self
    · intro c hc
      have hk := secure_filename_keep c (List.mem_of_mem_head? (by rw [hc]; simp))
      have hd := secure_filename_head hc
      intro hmem
      rcases List.mem_cons.mp hmem with h | h
      · exact hd (by rw [h]; simp)
      · exact keep_ne_space hk (by simpa using h)
    · intro c hc
      have hk : keepChar c = true :=
        secure_filename_keep c (List.mem_of_getLast?_eq_some hc)
      have hd := secure_filename_last hc
      intro hmem
      rcases List.mem_cons.mp hmem with h | h
      · exact hd (by rw [h]; simp)
      · exact keep_ne_space hk (by simpa using h)
  rw [h3]

/-! ### Decimal rendering is injective -/

/-- A decimal digit renders to the character with code `48 + n`. -/
theorem digitChar_toNat {n : Nat} (h : n < 10) : (Nat.digitChar n).toNat = 48 + n := by
  interval_cases n <;> rfl

/-- Appending a digit multiplies the decoded value by ten. -/
theorem decVal_append_digit (xs : List Char) (c : Char) :
    decVal (xs ++ [c]) = 10 * decVal xs + (c.toNat - 48) := by
  unfold decVal
  rw [List.foldl_append]
  rfl

/-- `decVal` is a left inverse of the fuelled decimal renderer. -/
theorem decVal_natToDecAux : ∀ fuel n, n < fuel → decVal (natToDecAux fuel n) = n := by
  intro fuel
  induction fuel with
  | zero => intro n h; omega
  | succ fuel ih =>
    intro n h
    rw [natToDecAux]
    by_cases h10 : n < 10
    · rw [if_pos h10]
      show decVal ([] ++ [Nat.digitChar n]) = n
      rw [decVal_append_digit]
      rw [digitChar_toNat h10]
      simp [decVal]
    · rw [if_neg h10]
      rw [decVal_append_digit]
      have hdiv : n / 10 < fuel := by
        have h0 := Nat.div_lt_self (show 0 < n by omega) (show 1 < 10 by omega)
        omega
      rw [ih (n / 10) hdiv]
      rw [digitChar_toNat (Nat.mod_lt n (by omega))]
      omega

/-- Decimal rendering is injective. -/
theorem natToDec_inj {m n : Nat} (h : natToDec m = natToDec n) : m = n := by
  have hm := decVal_natToDecAux (m + 1) m (Nat.lt_succ_self m)
  have hn := decVal_natToDecAux (n + 1) n (Nat.lt_succ_self n)
  unfold natToDec at h
  rw [← hm, ← hn, h]

/-- With a fixed base and extension, the suffixed names are pairwise
distinct. -/
theorem mkSuffixed_inj {base ext : List Char} {i j : Nat}
    (h : mkSuffixed base i ext = mkSuffixed base j ext) : i = j := by
  unfold mkSuffixed at h
  injection h with h1
  have h2 := List.append_cancel_left h1
  injection h2 with _ h3
  exact natToDec_inj (List.append_cancel_right h3)

/-! ### The collision loop terminates within `names.length + 1` probes -/

/-- Among the first `names.length + 1` suffixed candidates at least one name
is free: the candidates are pairwise distinct and the directory holds only
`names.length` names. -/
theorem exists_free_in_range (names : List String) (base ext : List Char) :
    ∃ j, j < names.length + 1 ∧
      names.contains (mkSuffixed base (1 + j) ext) = false := by
  by_contra hc
  push_neg at hc
  have hmem : ∀ j : Fin (names.length + 1), mkSuffixed base (1 + j.1) ext ∈ names := by
    intro j
    have h1 := hc j.1 j.2
    have h2 : names.contains (mkSuffixed base (1 + j.1) ext) = true := by
      cases h3 : names.contains (mkSuffixed base (1 + j.1) ext)
      · exact absurd h3 h1
      · rfl
    simpa using h2
  have hle : (Finset.univ : Finset (Fin (names.length + 1))).card ≤
      names.toFinset.card := by
    apply Finset.card_le_card_of_injOn (fun j => mkSuffixed base (1 + j.1) ext)
    · intro j _
      exact List.mem_toFinset.mpr (hmem j)
    · intro a _ b _ hab
      have h4 := mkSuffixed_inj hab
      exact Fin.ext (by omega)
  have h5 : names.toFinset.card ≤ names.length := List.toFinset_card_le names
  rw [Finset.card_univ, Fintype.card_fin] at hle
  omega

/-- What the `while` loop computes, given that a free candidate exists within
the supplied fuel: the returned name is the first free suffixed name at or
after `counter`, and the trace probes every candidate up to it. -/
theorem collisionLoop_spec (names : List String) (base ext : List Char) :
    ∀ fuel counter,
      (∃ j, j < fuel ∧ names.contains (mkSuffixed base (counter + j) ext) = false) →
      ∃ k, counter ≤ k ∧
        (collisionLoop names base ext fuel counter).1 = mkSuffixed base k ext ∧
        names.contains (mkSuffixed base k ext) = false ∧
        (∀ m, counter ≤ m → m < k → names.contains (mkSuffixed base m ext) = true) := by
  intro fuel
  induction fuel with
  | zero =>
    intro counter h
    obtain ⟨j, hj, _⟩ := h
    omega
  | succ fuel ih =>
    intro counter h
    obtain ⟨j, hj, hfree⟩ := h
    by_cases hc : names.contains (mkSuffixed base counter ext) = true
    · have hj0 : j ≠ 0 := by
        rintro rfl
        rw [Nat.add_zero] at hfree
        rw [hfree] at hc
        exact Bool.noConfusion hc
      obtain ⟨j', rfl⟩ : ∃ j', j = j' + 1 := ⟨j - 1, by omega⟩
      have hex : ∃ j'', j'' < fuel ∧
          names.contains (mkSuffixed base ((counter + 1) + j'') ext) = false :=
        ⟨j', by omega, by rw [show counter + 1 + j' = counter + (j' + 1) by omega]; exact hfree⟩
      obtain ⟨k, hk1, hk2, hk3, hk4⟩ := ih (counter + 1) hex
      refine ⟨k, by omega, ?_, hk3, ?_⟩
      · simp only [collisionLoop, hc, if_true]
        exact hk2
      · intro m hm1 hm2
        by_cases hmc : m = counter
        · subst hmc; exact hc
        · exact hk4 m (by omega) hm2
    · have hcf : names.contains (mkSuffixed base counter ext) = false := by
        cases h3 : names.contains (mkSuffixed base counter ext)
        · rfl
        · exact absurd h3 hc
      refine ⟨counter, Nat.le_refl _, ?_, hcf, ?_⟩
      · simp only [collisionLoop, hcf]
        simp
      · intro m hm1 hm2
        omega

/-! ### Shape of sanitized names -/

/-- Data-level description of a successful sanitization: the result is the
nonempty output of `secure_filename`. -/
theorem sanitize_some_props {s r : String} (h : sanitize_filename s = some r) :
    r.data = secure_filename s.data ∧ r.data ≠ [] := by
  rw [sanitize_eq_secure] at h
  by_cases he : (secure_filename s.data).isEmpty
  · rw [if_pos he] at h
    exact Option.noConfusion h
  · rw [if_neg he] at h
    injection h with h1
    subst h1
    constructor
    · rfl
    · simpa using he

/-- A sanitized name is a nonempty bare filename: it contains no path
separator and is neither `"."` nor `".."`, so `STORAGE_DIR / name` is a
direct child of the storage root. -/
theorem sanitize_output_safe {s r : String} (h : sanitize_filename s = some r) :
    r.data ≠ [] ∧ (∀ c ∈ r.data, c ≠ '/') ∧ r ≠ "." ∧ r ≠ ".." := by
  obtain ⟨hdata, hne⟩ := sanitize_some_props h
  have hkeep : ∀ c ∈ r.data, keepChar c = true := by
    rw [hdata]; exact secure_filename_keep
  have hhead : ∀ c, r.data.head? = some c → c ∉ ['.', '_'] := by
    rw [hdata]; exact fun c => secure_filename_head
  refine ⟨hne, fun c hc => keep_ne_slash (hkeep c hc), ?_, ?_⟩
  · intro hdot
    subst hdot
    exact hhead '.' rfl (by simp)
  · intro hdot
    subst hdot
    exact hhead '.' rfl (by simp)

/-! ### Claim C9 -/

/-- C9: on login with the correct password the session state is reset
entirely (every prior field cleared) and then `authenticated := true` and
`lastActivity := now` are set (with the `permanent` flag); the resulting
session does not depend on the prior session in any way.  On login with an
incorrect password no session field is mutated. -/
theorem c9_login_session_reset (s : Session) (now : Int) :
    login true s now =
      (.loginOk, { authenticated := true, lastActivity := some now,
                   permanent := true, other := [] }) ∧
    login false s now = (.loginFail, s) := by
  constructor <;> rfl

/-! ### Claim C8 -/

/-- C8: for a request authorized via session (whitelist passes, no usable
API key, `authenticated = true`, `lastActivity = some t`): if
`now - t > sessionLifetime` the session is cleared and the request denied
with `SessionExpired`; otherwise `lastActivity` is refreshed to `now` and
the request allowed (sliding-window expiry). -/
theorem c8_session_expiry (cfg : Config) (ip : String) (apiKey : Option String)
    (s : Session) (t now : Int)
    (hip : check_ip_whitelist cfg ip = true)
    (hkey : apiKey = none ∨ apiKey = some "")
    (hauth : s.authenticated = true)
    (hlast : s.lastActivity = some t) :
    (now - t > cfg.sessionLifetime →
      require_auth cfg ip apiKey s now = (.sessionExpired, Session.cleared)) ∧
    (¬(now - t > cfg.sessionLifetime) →
      require_auth cfg ip apiKey s now = (.allow, { s with lastActivity := some now })) := by
  have hbase : require_auth cfg ip apiKey s now = sessionAuth cfg s now := by
    rcases hkey with rfl | rfl <;> simp [require_auth, hip]
  constructor
  · intro hgt
    rw [hbase]
    simp [sessionAuth, hauth, hlast, hgt]
  · intro hle
    rw [hbase]
    simp [sessionAuth, hauth, hlast, hle]

/-- Witness for C8 at a concrete stale and a concrete fresh session. -/
theorem c8_session_expiry_witness :
    check_ip_whitelist ⟨none, [], [], 3600⟩ "127.0.0.1" = true ∧
    require_auth ⟨none, [], [], 3600⟩ "127.0.0.1" none
        ⟨true, some 0, true, [("k", "v")]⟩ 5000 =
      (.sessionExpired, Session.cleared) ∧
    require_auth ⟨none, [], [], 3600⟩ "127.0.0.1" none
        ⟨true, some 0, true, [("k", "v")]⟩ 100 =
      (.allow, ⟨true, some 100, true, [("k", "v")]⟩) :=
  ⟨rfl,
    (c8_session_expiry ⟨none, [], [], 3600⟩ "127.0.0.1" none
      ⟨true, some 0, true, [("k", "v")]⟩ 0 5000 rfl (Or.inl rfl) rfl rfl).1 (by decide),
    (c8_session_expiry ⟨none, [], [], 3600⟩ "127.0.0.1" none
      ⟨true, some 0, true, [("k", "v")]⟩ 0 100 rfl (Or.inl rfl) rfl rfl).2 (by decide)⟩

/-! ### Claim C7 (corrected: an empty-valued header is treated as absent) -/

/-- Counterexample to C7 as stated: the header `X-API-Key` present with the
empty-string value does not match any configured key, yet the request is
not denied with `InvalidApiKey` — Python `if api_key:` is falsy on the
empty string, so the request falls through to session authentication and
is allowed. -/
theorem c7_empty_key_counterexample :
    require_auth ⟨none, [], ["secret"], 3600⟩ "1.2.3.4" (some "")
        ⟨true, none, false, []⟩ 0 =
      (.allow, ⟨true, some 0, false, []⟩) ∧
    (("" : String) ∈ (["secret"] : List String) ↔ False) := by
  constructor
  · rfl
  · simp

/-- C7 (amended): the IP whitelist is checked first — when it rejects, the
decision is `Forbidden` whatever the credentials; then an API-key header
present with a non-empty value must exactly match a configured key:
present-but-invalid yields `InvalidApiKey`, and a valid key yields `Allow`
with the session completely untouched (bypassing all session checks). -/
theorem c7_auth_order (cfg : Config) (ip : String) (apiKey : Option String)
    (s : Session) (now : Int) (k : String) :
    (check_ip_whitelist cfg ip = false →
      require_auth cfg ip apiKey s now = (.forbidden, s)) ∧
    (check_ip_whitelist cfg ip = true → apiKey = some k → k ≠ "" →
      cfg.apiKeys.contains k = false →
      require_auth cfg ip apiKey s now = (.invalidApiKey, s)) ∧
    (check_ip_whitelist cfg ip = true → apiKey = some k → k ≠ "" →
      cfg.apiKeys.contains k = true →
      require_auth cfg ip apiKey s now = (.allow, s)) := by
  refine ⟨?_, ?_, ?_⟩
  · intro hip
    simp [require_auth, hip]
  · rintro hip rfl hk hbad
    have hbad2 : k ∉ cfg.apiKeys := by simpa using hbad
    simp [require_auth, hip, hk, hbad2]
  · rintro hip rfl hk hgood
    have hgood2 : k ∈ cfg.apiKeys := by simpa using hgood
    simp [require_auth, hip, hk, hgood2]

/-- Witness for C7: the whitelist rejection, an invalid key, and a valid key
bypassing an expired session. -/
theorem c7_auth_order_witness :
    require_auth ⟨none, ["10.0.0.1"], ["secret"], 3600⟩ "1.2.3.4" (some "secret")
        ⟨true, some 0, true, []⟩ 0 =
      (.forbidden, ⟨true, some 0, true, []⟩) ∧
    require_auth ⟨none, [], ["secret"], 3600⟩ "9.9.9.9" (some "wrong")
        Session.cleared 0 =
      (.invalidApiKey, Session.cleared) ∧
    require_auth ⟨none, [], ["secret"], 3600⟩ "9.9.9.9" (some "secret")
        ⟨true, some (-100000), true, []⟩ 0 =
      (.allow, ⟨true, some (-100000), true, []⟩) :=
  ⟨(c7_auth_order _ _ _ _ 0 "secret").1 (by decide),
    (c7_auth_order _ _ _ _ 0 "wrong").2.1 (by decide) rfl (by decide) (by decide),
    (c7_auth_order _ _ _ _ 0 "secret").2.2 (by decide) rfl (by decide) (by decide)⟩

/-! ### Claim C3 (corrected: interior whitespace becomes an underscore) -/

/-- Counterexample to C3 as stated: on the input with an interior space the
spec pipeline (strip separators, trim ends) returns the name unchanged,
but `sanitize_filename` returns the name with the space replaced by an
underscore, because werkzeug `secure_filename` joins whitespace-separated
words with underscores. -/
theorem c3_whitespace_counterexample :
    sanitize_filename "a b" = some "a_b" ∧
    sanitizeSpec "a b" = some "a b" ∧
    ("a_b" : String) ≠ "a b" :=
  ⟨rfl, rfl, by decide⟩

/-- C3 (amended): `sanitize_filename` returns exactly the output of
werkzeug `secure_filename` (whitespace runs become single underscores,
characters outside the class kept by `keepChar` are deleted, leading and
trailing dots and underscores are stripped), because the subsequent
Windows-character removal and the trim of dots and spaces are no-ops on
that output; it fails with `InvalidFilename` exactly when that output is
empty, and any returned name is nonempty and consists only of kept
characters. -/
theorem c3_sanitize_algorithm (s : String) :
    sanitize_filename s =
      (if (secure_filename s.data).isEmpty then none
       else some (String.mk (secure_filename s.data))) ∧
    (∀ r, sanitize_filename s = some r →
      r.data ≠ [] ∧ ∀ c ∈ r.data, keepChar c = true) := by
  refine ⟨sanitize_eq_secure s, ?_⟩
  intro r hr
  obtain ⟨hd, hne⟩ := sanitize_some_props hr
  refine ⟨hne, ?_⟩
  rw [hd]
  exact secure_filename_keep

/-- Witness for C3 at a concrete input with interior whitespace. -/
theorem c3_sanitize_algorithm_witness :
    (sanitize_filename "my file.txt" =
      (if (secure_filename ("my file.txt" : String).data).isEmpty then none
       else some (String.mk (secure_filename ("my file.txt" : String).data)))) ∧
    ("my_file.txt" : String).data ≠ [] ∧
    ∀ c ∈ ("my_file.txt" : String).data, keepChar c = true :=
  ⟨(c3_sanitize_algorithm "my file.txt").1,
    (c3_sanitize_algorithm "my file.txt").2 "my_file.txt" (by decide)⟩

/-! ### Claim C10 -/

/-- C10: `sanitize_filename` is idempotent — a name it has produced passes a
second sanitization unchanged: the output consists only of kept characters
and neither starts nor ends with a dot or underscore, which makes it a
fixed point of the whole pipeline. -/
theorem c10_sanitize_idempotent {s r : String}
    (h : sanitize_filename s = some r) : sanitize_filename r = some r := by
  obtain ⟨hdata, hne⟩ := sanitize_some_props h
  have hkeep : ∀ c ∈ r.data, keepChar c = true := by
    rw [hdata]; exact secure_filename_keep
  have hh : ∀ c, r.data.head? = some c → c ∉ ['.', '_'] := by
    rw [hdata]; exact fun c => secure_filename_head
  have hl : ∀ c, r.data.getLast? = some c → c ∉ ['.', '_'] := by
    rw [hdata]; exact fun c => secure_filename_last
  have hfix : secure_filename r.data = r.data :=
    secure_filename_fixed hne hkeep hh hl
  rw [sanitize_eq_secure, hfix]
  rw [if_neg (by simpa using hne)]

/-- Witness for C10 at a concrete input that sanitization rewrites. -/
theorem c10_sanitize_idempotent_witness :
    sanitize_filename "report v2..txt" = some "report_v2..txt" ∧
    sanitize_filename "report_v2..txt" = some "report_v2..txt" :=
  ⟨rfl, c10_sanitize_idempotent (show sanitize_filename "report v2..txt" =
    some "report_v2..txt" from rfl)⟩

/-! ### Claim C2 (corrected: traversal names are neutralized, not rejected) -/

/-- Counterexample to C2 as stated: the raw name contains both `../` and
`/`, yet the delete request is not rejected — sanitization collapses it to
the bare name `etc_passwd`, an existence probe is made on the derived
path, and the stored file of that name is unlinked with a success
response. -/
theorem c2_traversal_counterexample :
    sanitize_filename "../etc/passwd" = some "etc_passwd" ∧
    (delete_file (α := Nat) ⟨[("etc_passwd", 0)], fun _ => true⟩ "../etc/passwd").1 =
      Resp.ok "etc_passwd" ∧
    (delete_file (α := Nat) ⟨[("etc_passwd", 0)], fun _ => true⟩ "../etc/passwd").2.2 =
      [FsEvent.existsCheck "etc_passwd", FsEvent.containCheck "etc_passwd",
        FsEvent.unlink "etc_passwd"] :=
  ⟨rfl, rfl, rfl⟩

/-- C2 (amended): a raw filename containing separators or traversal segments
is neutralized rather than rejected: when sanitization fails the delete
request is rejected with no filesystem call at all, and when it succeeds
every filesystem call of the delete handler addresses only the sanitized
name, which is a nonempty bare filename (no `'/'`, not `"."`, not `".."`),
hence a direct child of StorageRoot. -/
theorem c2_sanitization_confines {α : Type} (fs : FS α) (raw : String) :
    (sanitize_filename raw = none →
      delete_file fs raw = (.invalidFilename, fs, [])) ∧
    (∀ s, sanitize_filename raw = some s →
      (s.data ≠ [] ∧ (∀ c ∈ s.data, c ≠ '/') ∧ s ≠ "." ∧ s ≠ "..") ∧
      ∀ e ∈ (delete_file fs raw).2.2,
        e ∈ [FsEvent.existsCheck s, FsEvent.containCheck s, FsEvent.unlink s]) := by
  constructor
  · intro h
    simp [delete_file, h]
  · intro s hs
    refine ⟨sanitize_output_safe hs, ?_⟩
    intro e he
    simp only [delete_file, hs] at he
    by_cases h1 : fs.existsF s = true
    · by_cases h2 : fs.resolveInRoot s = true
      · simp [h1, h2] at he
        rcases he with rfl | rfl | rfl <;> simp
      · simp [h1, h2] at he
        rcases he with rfl | rfl <;> simp
    · simp [h1] at he
      simp [he]

/-- Witness for C2: a name that sanitizes to nothing is rejected with an
empty trace, and a surviving name confines the probes. -/
theorem c2_sanitization_confines_witness :
    delete_file (α := Nat) ⟨[], fun _ => true⟩ "..." =
      (.invalidFilename, ⟨[], fun _ => true⟩, []) ∧
    ((("readme" : String).data ≠ [] ∧
      (∀ c ∈ ("readme" : String).data, c ≠ '/') ∧
      ("readme" : String) ≠ "." ∧ ("readme" : String) ≠ "..") ∧
      ∀ e ∈ (delete_file (α := Nat) ⟨[], fun _ => true⟩ "readme").2.2,
        e ∈ [FsEvent.existsCheck "readme", FsEvent.containCheck "readme",
          FsEvent.unlink "readme"]) :=
  ⟨(c2_sanitization_confines (α := Nat) ⟨[], fun _ => true⟩ "...").1 rfl,
    (c2_sanitization_confines (α := Nat) ⟨[], fun _ => true⟩ "readme").2 "readme" rfl⟩

/-! ### Claim C1 (corrected: Upload and Info never re-validate containment) -/

/-- Counterexample to C1 as stated: a file-info request — a read operation
on a client-supplied name — proceeds to the metadata read and succeeds
while its trace contains no containment check at all, so the joined path
is never verified against StorageRoot for the Info operation. -/
theorem c1_info_counterexample :
    (file_info (α := Nat) ⟨[("a.txt", 0)], fun _ => true⟩ "a.txt").1 =
      Resp.ok "a.txt" ∧
    (file_info (α := Nat) ⟨[("a.txt", 0)], fun _ => true⟩ "a.txt").2.2 =
      [FsEvent.existsCheck "a.txt", FsEvent.statRead "a.txt"] ∧
    ∀ e ∈ (file_info (α := Nat) ⟨[("a.txt", 0)], fun _ => true⟩ "a.txt").2.2,
      e.isContain = false := by
  refine ⟨rfl, rfl, ?_⟩
  decide

/-- Every call recorded by the collision loop is an existence probe. -/
theorem collisionLoop_trace_probes (names : List String) (base ext : List Char) :
    ∀ fuel counter, ∀ e ∈ (collisionLoop names base ext fuel counter).2,
      e.isContain = false := by
  intro fuel
  induction fuel with
  | zero =>
    intro counter e he
    simp [collisionLoop] at he
  | succ fuel ih =>
    intro counter e he
    simp only [collisionLoop] at he
    by_cases hc : names.contains (mkSuffixed base counter ext) = true
    · simp only [hc, if_true] at he
      rcases List.mem_cons.mp he with rfl | he2
      · rfl
      · exact ih (counter + 1) e he2
    · simp only [hc, if_false] at he
      simp at he
      simp [he, FsEvent.isContain]

/-- C1 (amended): Delete, Rename and Download resolve the joined path and
verify containment in StorageRoot before the unlink, rename or serve call,
failing with the PathTraversal response (surfaced as 400, 400 and 404
respectively) when resolution escapes the root; Upload and Info perform no
containment re-validation at all and rely on sanitization alone. -/
theorem c1_containment_by_handler {α : Type} (cfg : Config) (fs : FS α)
    (raw rawNew : String) (content : α) (s n : String)
    (hs : sanitize_filename raw = some s)
    (hn : sanitize_filename rawNew = some n) :
    (fs.existsF s = true → fs.resolveInRoot s = false →
      delete_file fs raw =
        (.pathTraversal, fs, [FsEvent.existsCheck s, FsEvent.containCheck s])) ∧
    (FsEvent.unlink s ∈ (delete_file fs raw).2.2 →
      (delete_file fs raw).2.2 =
        [FsEvent.existsCheck s, FsEvent.containCheck s, FsEvent.unlink s]) ∧
    (is_allowed_extension cfg.allowedExtensions n = true → fs.existsF s = true →
      fs.existsF n = false → fs.resolveInRoot s = false →
      rename_file cfg fs raw rawNew = (.pathTraversal, fs,
        [FsEvent.existsCheck s, FsEvent.existsCheck n, FsEvent.containCheck s])) ∧
    (FsEvent.renameOp s n ∈ (rename_file cfg fs raw rawNew).2.2 →
      (rename_file cfg fs raw rawNew).2.2 =
        [FsEvent.existsCheck s, FsEvent.existsCheck n, FsEvent.containCheck s,
          FsEvent.renameOp s n, FsEvent.statRead n]) ∧
    (fs.existsF s = true → fs.resolveInRoot s = false →
      download_file fs raw =
        (.notFound, fs, [FsEvent.existsCheck s, FsEvent.containCheck s])) ∧
    (FsEvent.serve s ∈ (download_file fs raw).2.2 →
      (download_file fs raw).2.2 =
        [FsEvent.existsCheck s, FsEvent.containCheck s, FsEvent.serve s]) ∧
    (∀ e ∈ (upload_file cfg fs raw content).2.2, e.isContain = false) ∧
    (∀ e ∈ (file_info fs raw).2.2, e.isContain = false) := by
  refine ⟨?_, ?_, ?_, ?_, ?_, ?_, ?_, ?_⟩
  · intro hex hres
    simp [delete_file, hs, hex, hres]
  · intro hmem
    simp only [delete_file, hs] at hmem ⊢
    by_cases h1 : fs.existsF s = true
    · by_cases h2 : fs.resolveInRoot s = true
      · simp [h1, h2]
      · simp [h1, h2] at hmem
    · simp [h1] at hmem
  · intro hext hexo hexn hres
    simp [rename_file, hs, hn, hext, hexo, hexn, hres]
  · intro hmem
    simp only [rename_file, hs, hn] at hmem ⊢
    by_cases hext : is_allowed_extension cfg.allowedExtensions n = true
    · by_cases h1 : fs.existsF s = true
      · by_cases h2 : fs.existsF n = true
        · simp [hext, h1, h2] at hmem
        · by_cases h3 : fs.resolveInRoot s = true
          · simp [hext, h1, h2, h3]
          · simp [hext, h1, h2, h3] at hmem
      · simp [hext, h1] at hmem
    · simp [hext] at hmem
  · intro hex hres
    simp [download_file, hs, hex, hres]
  · intro hmem
    simp only [download_file, hs] at hmem ⊢
    by_cases h1 : fs.existsF s = true
    · by_cases h2 : fs.resolveInRoot s = true
      · simp [h1, h2]
      · simp [h1, h2] at hmem
    · simp [h1] at hmem
  · intro e he
    simp only [upload_file, hs] at he
    by_cases hext : is_allowed_extension cfg.allowedExtensions s = true
    · by_cases h1 : fs.existsF s = true
      · simp [hext, h1] at he
        rcases he with rfl | he2 | rfl
        · rfl
        · exact collisionLoop_trace_probes fs.names _ _ _ 1 e he2
        · rfl
      · simp [hext, h1] at he
        rcases he with rfl | rfl <;> rfl
    · simp [hext] at he
  · intro e he
    simp only [file_info, hs] at he
    by_cases h1 : fs.existsF s = true
    · simp [h1] at he
      rcases he with rfl | rfl <;> rfl
    · simp [h1] at he
      subst he
      rfl

/-- Witness for C1: the traversal-rejection branches and the trace shapes at
concrete inputs. -/
theorem c1_containment_by_handler_witness :
    (delete_file (α := Nat) ⟨[("x.txt", 0)], fun _ => false⟩ "x.txt" =
      (.pathTraversal, ⟨[("x.txt", 0)], fun _ => false⟩,
        [FsEvent.existsCheck "x.txt", FsEvent.containCheck "x.txt"])) ∧
    ((delete_file (α := Nat) ⟨[("x.txt", 0)], fun _ => true⟩ "x.txt").2.2 =
      [FsEvent.existsCheck "x.txt", FsEvent.containCheck "x.txt",
        FsEvent.unlink "x.txt"]) ∧
    (∀ e ∈ (upload_file (α := Nat) ⟨none, [], [], 3600⟩
        ⟨[("x.txt", 0)], fun _ => true⟩ "x.txt" 7).2.2, e.isContain = false) := by
  have h := c1_containment_by_handler (α := Nat) ⟨none, [], [], 3600⟩
    ⟨[("x.txt", 0)], fun _ => false⟩ "x.txt" "y.txt" 7 "x.txt" "y.txt" rfl rfl
  have h2 := c1_containment_by_handler (α := Nat) ⟨none, [], [], 3600⟩
    ⟨[("x.txt", 0)], fun _ => true⟩ "x.txt" "y.txt" 7 "x.txt" "y.txt" rfl rfl
  exact ⟨h.1 rfl rfl, h2.2.1 (by decide), h2.2.2.2.2.2.2.1⟩

/-! ### Claim C4 -/

/-- C4: when the sanitized upload target already exists, the stored file
receives the name `base_N.ext` (stem, underscore, decimal counter,
extension) for the smallest `N ≥ 1` whose name is free, probing
sequentially; the final name is free beforehand so no existing file is
overwritten, the response is a success carrying the final name, the new
directory is the old one extended with the new entry, the stored content
equals the uploaded bytes, and every other name still maps to its previous
content. -/
theorem c4_upload_collision {α : Type} (cfg : Config) (fs : FS α)
    (raw name : String) (content : α)
    (hs : sanitize_filename raw = some name)
    (hext : is_allowed_extension cfg.allowedExtensions name = true)
    (hex : fs.existsF name = true) :
    ∃ k, 1 ≤ k ∧
      (upload_file cfg fs raw content).1 =
        Resp.ok (mkSuffixed (splitStemExt name.data).1 k (splitStemExt name.data).2) ∧
      fs.existsF (mkSuffixed (splitStemExt name.data).1 k (splitStemExt name.data).2) =
        false ∧
      (∀ m, 1 ≤ m → m < k →
        fs.existsF (mkSuffixed (splitStemExt name.data).1 m (splitStemExt name.data).2) =
          true) ∧
      (upload_file cfg fs raw content).2.1.files =
        (mkSuffixed (splitStemExt name.data).1 k (splitStemExt name.data).2, content) ::
          fs.files ∧
      (upload_file cfg fs raw content).2.1.lookup
        (mkSuffixed (splitStemExt name.data).1 k (splitStemExt name.data).2) =
        some content ∧
      (∀ nm : String,
        nm ≠ mkSuffixed (splitStemExt name.data).1 k (splitStemExt name.data).2 →
        (upload_file cfg fs raw content).2.1.lookup nm = fs.lookup nm) := by
  obtain ⟨j, hj, hjf⟩ :=
    exists_free_in_range fs.names (splitStemExt name.data).1 (splitStemExt name.data).2
  obtain ⟨k, hk1, hk2, hk3, hk4⟩ :=
    collisionLoop_spec fs.names (splitStemExt name.data).1 (splitStemExt name.data).2
      (fs.names.length + 1) 1 ⟨j, hj, hjf⟩
  have hfiles : (upload_file cfg fs raw content).2.1.files =
      (mkSuffixed (splitStemExt name.data).1 k (splitStemExt name.data).2, content) ::
        fs.files := by
    simp [upload_file, hs, hext, hex, hk2]
  refine ⟨k, hk1, ?_, hk3, ?_, hfiles, ?_, ?_⟩
  · simp [upload_file, hs, hext, hex, hk2]
  · intro m hm1 hm2
    exact hk4 m hm1 hm2
  · unfold FS.lookup
    rw [hfiles]
    rw [List.find?_cons_of_pos _ (by simp)]
    rfl
  · intro nm hnm
    unfold FS.lookup
    rw [hfiles]
    rw [List.find?_cons_of_neg _ (by simp; exact fun h => hnm h.symm)]

/-- Witness for C4: uploading over an existing `a.txt` stores `a_1.txt`. -/
theorem c4_upload_collision_witness :
    (sanitize_filename "a.txt" = some "a.txt" ∧
      is_allowed_extension (none : Option (List String)) "a.txt" = true ∧
      FS.existsF (α := Nat) ⟨[("a.txt", 0)], fun _ => true⟩ "a.txt" = true) ∧
    (∃ k, 1 ≤ k ∧
      (upload_file (α := Nat) ⟨none, [], [], 3600⟩ ⟨[("a.txt", 0)], fun _ => true⟩
          "a.txt" 7).1 =
        Resp.ok (mkSuffixed (splitStemExt ("a.txt" : String).data).1 k
          (splitStemExt ("a.txt" : String).data).2) ∧
      FS.existsF (α := Nat) ⟨[("a.txt", 0)], fun _ => true⟩
        (mkSuffixed (splitStemExt ("a.txt" : String).data).1 k
          (splitStemExt ("a.txt" : String).data).2) = false ∧
      (∀ m, 1 ≤ m → m < k →
        FS.existsF (α := Nat) ⟨[("a.txt", 0)], fun _ => true⟩
          (mkSuffixed (splitStemExt ("a.txt" : String).data).1 m
            (splitStemExt ("a.txt" : String).data).2) = true) ∧
      (upload_file (α := Nat) ⟨none, [], [], 3600⟩ ⟨[("a.txt", 0)], fun _ => true⟩
          "a.txt" 7).2.1.files =
        (mkSuffixed (splitStemExt ("a.txt" : String).data).1 k
          (splitStemExt ("a.txt" : String).data).2, 7) :: [("a.txt", 0)] ∧
      (upload_file (α := Nat) ⟨none, [], [], 3600⟩ ⟨[("a.txt", 0)], fun _ => true⟩
          "a.txt" 7).2.1.lookup
        (mkSuffixed (splitStemExt ("a.txt" : String).data).1 k
          (splitStemExt ("a.txt" : String).data).2) = some 7 ∧
      (∀ nm : String,
        nm ≠ mkSuffixed (splitStemExt ("a.txt" : String).data).1 k
          (splitStemExt ("a.txt" : String).data).2 →
        (upload_file (α := Nat) ⟨none, [], [], 3600⟩ ⟨[("a.txt", 0)], fun _ => true⟩
            "a.txt" 7).2.1.lookup nm =
          FS.lookup (α := Nat) ⟨[("a.txt", 0)], fun _ => true⟩ nm)) :=
  ⟨⟨rfl, rfl, rfl⟩,
    c4_upload_collision (α := Nat) ⟨none, [], [], 3600⟩ ⟨[("a.txt", 0)], fun _ => true⟩
      "a.txt" "a.txt" 7 rfl rfl rfl⟩

/-! ### Claim C5 -/

/-- C5: for a rename request with both names sanitized and the new name
passing the extension check: a missing old name fails with NotFound and
changes nothing; an existing new name fails with Conflict and changes
nothing, so the original file is still retrievable; and a success implies
the new name was previously free (no silent overwrite) and the trace shows
exactly one rename call and no write or unlink — a single atomic rename,
not copy-plus-delete. -/
theorem c5_rename_guards {α : Type} (cfg : Config) (fs : FS α)
    (rawOld rawNew : String) (o n : String)
    (ho : sanitize_filename rawOld = some o)
    (hn : sanitize_filename rawNew = some n)
    (hext : is_allowed_extension cfg.allowedExtensions n = true) :
    (fs.existsF o = false →
      rename_file cfg fs rawOld rawNew = (.notFound, fs, [FsEvent.existsCheck o])) ∧
    (fs.existsF o = true → fs.existsF n = true →
      rename_file cfg fs rawOld rawNew =
        (.conflict, fs, [FsEvent.existsCheck o, FsEvent.existsCheck n])) ∧
    (∀ r, (rename_file cfg fs rawOld rawNew).1 = Resp.ok r →
      r = n ∧ fs.existsF n = false ∧
      ((rename_file cfg fs rawOld rawNew).2.2.countP FsEvent.isRenameOp) = 1 ∧
      ((rename_file cfg fs rawOld rawNew).2.2.countP FsEvent.isWriteOrUnlink) = 0) := by
  refine ⟨?_, ?_, ?_⟩
  · intro hexo
    simp [rename_file, ho, hn, hext, hexo]
  · intro hexo hexn
    simp [rename_file, ho, hn, hext, hexo, hexn]
  · intro r hr
    simp only [rename_file, ho, hn, hext, Bool.not_true, if_false] at hr ⊢
    by_cases h1 : fs.existsF o = true
    · by_cases h2 : fs.existsF n = true
      · simp [h1, h2] at hr
      · by_cases h3 : fs.resolveInRoot o = true
        · simp only [h1, h2] at hr ⊢
          simp at hr ⊢
          simp [h3] at hr ⊢
          refine ⟨hr.symm, ?_⟩
          simp [List.countP, List.countP.go, FsEvent.isRenameOp, FsEvent.isWriteOrUnlink]
        · simp [h1, h2, h3] at hr
    · simp [h1] at hr

/-- Witness for C5: the three branches at concrete directories. -/
theorem c5_rename_guards_witness :
    (rename_file (α := Nat) ⟨none, [], [], 3600⟩ ⟨[("b.txt", 0)], fun _ => true⟩
        "a.txt" "c.txt" =
      (.notFound, ⟨[("b.txt", 0)], fun _ => true⟩, [FsEvent.existsCheck "a.txt"])) ∧
    (rename_file (α := Nat) ⟨none, [], [], 3600⟩ ⟨[("a.txt", 0), ("c.txt", 1)], fun _ => true⟩
        "a.txt" "c.txt" =
      (.conflict, ⟨[("a.txt", 0), ("c.txt", 1)], fun _ => true⟩,
        [FsEvent.existsCheck "a.txt", FsEvent.existsCheck "c.txt"])) ∧
    (("c.txt" : String) = "c.txt" ∧
      FS.existsF (α := Nat) ⟨[("a.txt", 0)], fun _ => true⟩ "c.txt" = false ∧
      ((rename_file (α := Nat) ⟨none, [], [], 3600⟩ ⟨[("a.txt", 0)], fun _ => true⟩
          "a.txt" "c.txt").2.2.countP FsEvent.isRenameOp) = 1 ∧
      ((rename_file (α := Nat) ⟨none, [], [], 3600⟩ ⟨[("a.txt", 0)], fun _ => true⟩
          "a.txt" "c.txt").2.2.countP FsEvent.isWriteOrUnlink) = 0) :=
  ⟨(c5_rename_guards (α := Nat) ⟨none, [], [], 3600⟩ ⟨[("b.txt", 0)], fun _ => true⟩
      "a.txt" "c.txt" "a.txt" "c.txt" rfl rfl rfl).1 rfl,
    (c5_rename_guards (α := Nat) ⟨none, [], [], 3600⟩
      ⟨[("a.txt", 0), ("c.txt", 1)], fun _ => true⟩
      "a.txt" "c.txt" "a.txt" "c.txt" rfl rfl rfl).2.1 rfl rfl,
    (c5_rename_guards (α := Nat) ⟨none, [], [], 3600⟩ ⟨[("a.txt", 0)], fun _ => true⟩
      "a.txt" "c.txt" "a.txt" "c.txt" rfl rfl rfl).2.2 "c.txt" rfl⟩

/-! ### Claim C6 (corrected: only the new name is extension-checked) -/

/-- Counterexample to C6 as stated: with AllowedExtensions restricted to
`.txt`, renaming the stored `a.exe` to `b.txt` proceeds to the filesystem
and succeeds even though the extension of the old name is not allowed —
the handler checks only the new name. -/
theorem c6_old_extension_counterexample :
    is_allowed_extension (some [".txt"]) "a.exe" = false ∧
    (rename_file (α := Nat) ⟨some [".txt"], [], [], 3600⟩ ⟨[("a.exe", 0)], fun _ => true⟩
        "a.exe" "b.txt").1 = Resp.ok "b.txt" ∧
    (rename_file (α := Nat) ⟨some [".txt"], [], [], 3600⟩ ⟨[("a.exe", 0)], fun _ => true⟩
        "a.exe" "b.txt").2.2 =
      [FsEvent.existsCheck "a.exe", FsEvent.existsCheck "b.txt",
        FsEvent.containCheck "a.exe", FsEvent.renameOp "a.exe" "b.txt",
        FsEvent.statRead "b.txt"] :=
  ⟨rfl, rfl, rfl⟩

/-- C6 (amended): both names are sanitized, and the rename fails before any
filesystem call when either sanitization fails or when the lowercased
extension of the NEW name is outside a restricted AllowedExtensions; the
old name is not extension-checked. -/
theorem c6_rename_validation {α : Type} (cfg : Config) (fs : FS α)
    (rawOld rawNew : String) :
    (sanitize_filename rawOld = none →
      rename_file cfg fs rawOld rawNew = (.invalidFilename, fs, [])) ∧
    (sanitize_filename rawNew = none →
      rename_file cfg fs rawOld rawNew = (.invalidFilename, fs, [])) ∧
    (∀ o n, sanitize_filename rawOld = some o → sanitize_filename rawNew = some n →
      is_allowed_extension cfg.allowedExtensions n = false →
      rename_file cfg fs rawOld rawNew = (.typeNotAllowed, fs, [])) := by
  refine ⟨?_, ?_, ?_⟩
  · intro h
    cases hn : sanitize_filename rawNew <;> simp [rename_file, h, hn]
  · intro h
    cases ho : sanitize_filename rawOld <;> simp [rename_file, h, ho]
  · intro o n ho hn hext
    simp [rename_file, ho, hn, hext]

/-- Witness for C6: a bad old name, a bad new name, and a disallowed new
extension each fail with an empty trace. -/
theorem c6_rename_validation_witness :
    (rename_file (α := Nat) ⟨some [".txt"], [], [], 3600⟩ ⟨[], fun _ => true⟩
        "???" "b.txt" =
      (.invalidFilename, ⟨[], fun _ => true⟩, [])) ∧
    (rename_file (α := Nat) ⟨some [".txt"], [], [], 3600⟩ ⟨[], fun _ => true⟩
        "a.txt" "..." =
      (.invalidFilename, ⟨[], fun _ => true⟩, [])) ∧
    (rename_file (α := Nat) ⟨some [".txt"], [], [], 3600⟩ ⟨[], fun _ => true⟩
        "a.txt" "b.exe" =
      (.typeNotAllowed, ⟨[], fun _ => true⟩, [])) :=
  ⟨(c6_rename_validation (α := Nat) ⟨some [".txt"], [], [], 3600⟩ ⟨[], fun _ => true⟩
      "???" "b.txt").1 rfl,
    (c6_rename_validation (α := Nat) ⟨some [".txt"], [], [], 3600⟩ ⟨[], fun _ => true⟩
      "a.txt" "...").2.1 rfl,
    (c6_rename_validation (α := Nat) ⟨some [".txt"], [], [], 3600⟩ ⟨[], fun _ => true⟩
      "a.txt" "b.exe").2.2 "a.txt" "b.exe" rfl rfl rfl⟩

